import Mathlib

/-!
Verification of the Aira dental voice assistant's appointment availability
engine and conversation state machine, shallowly embedded from
`backend/services/appointment_service.py`, `backend/agents/dent_agent.py`,
`backend/core/llm_setup.py`, `backend/core/language_service.py` and
`backend/api/routes/appointments.py`.

Machine times are modelled at minute resolution (the source combines a
calendar date with an `HH:MM` time): an instant is an integer number of
minutes, `1440 * day + 60 * hour + minute`.  Fallible storage and provider
calls are modelled by passing the call's outcome as an `Except` value.
-/

namespace DentalVoice

/-- `AppointmentStatus` enum from `backend/models/schemas.py`. -/
inductive AppointmentStatus where
  | pending
  | confirmed
  | cancelled
  | completed
  deriving DecidableEq, Repr

/-- Appointment document (`backend/services/appointment_service.py` /
`backend/models`): the fields used by the service layer.  `instant` is the
stored `appointment_date` (date combined with the `HH:MM` time), in minutes. -/
structure Appointment where
  id : Nat
  patient_name : String
  instant : Int
  duration_minutes : Int
  reason : String
  status : AppointmentStatus
  deriving DecidableEq, Repr

/-- `settings.APPOINTMENT_SLOT_DURATION` (`backend/config/settings.py`). -/
def APPOINTMENT_SLOT_DURATION : Int := 30

/-- `settings.APPOINTMENT_BUFFER_MINUTES` (`backend/config/settings.py`). -/
def APPOINTMENT_BUFFER_MINUTES : Int := 15

/-- `settings.CLINIC_NAME` (`backend/config/settings.py`). -/
def CLINIC_NAME : String := "Smile Dental Clinic"

/-- Status filter of the conflict query in `check_availability`:
`status $in [PENDING, CONFIRMED]`. -/
def isActive (s : AppointmentStatus) : Bool :=
  s = AppointmentStatus.pending ∨ s = AppointmentStatus.confirmed

/-- The conflict query's document predicate in `check_availability`:
`appointment_date` in `[desired − buffer, desired + slot + buffer)` and the
status active. -/
def inConflictWindow (desired : Int) (a : Appointment) : Bool :=
  isActive a.status &&
    decide (desired - APPOINTMENT_BUFFER_MINUTES ≤ a.instant) &&
    decide (a.instant < desired + APPOINTMENT_SLOT_DURATION + APPOINTMENT_BUFFER_MINUTES)

/-- `AppointmentService.check_availability`, with the outcome of the stored
collection read passed in as `store` (`Except.error` models the storage call
raising).  The body runs the window/status conflict query over the documents
and returns `True` iff zero conflicts; the `except` clause returns `False`. -/
def check_availabilityE (store : Except Unit (List Appointment)) (desired : Int) : Bool :=
  match store with
  | Except.ok docs => (docs.filter (inConflictWindow desired)).length == 0
  | Except.error _ => false

/-- `check_availability` against a successfully read store. -/
def check_availability (docs : List Appointment) (desired : Int) : Bool :=
  check_availabilityE (Except.ok docs) desired

/-- Working hours of `get_available_slots`: opening 9:00 as minute of day. -/
def openingMinute : Nat := 9 * 60

/-- Working hours of `get_available_slots`: closing 20:00 as minute of day. -/
def closingMinute : Nat := 20 * 60

/-- The slot-grid `while` loop of `get_available_slots`: starts at `current`,
steps by `step`, stops at `stop`.  The source loop diverges when the step is
not positive (callers always pass the positive configured duration); here
`0 < step` is part of the loop guard so the recursion terminates. -/
def slot_loop (current stop step : Nat) : List Nat :=
  if _h : 0 < step ∧ current < stop then
    current :: slot_loop (current + step) stop step
  else
    []
termination_by stop - current
decreasing_by omega

/-- `AppointmentService.get_available_slots` with the outcome of each slot's
storage read passed in as `store` (the same collection is read once per
candidate slot): enumerate candidate starts from opening to closing stepped by
`slot_duration`, keep those for which `check_availability` holds.  Slot times
are minutes of day on `day`. -/
def get_available_slotsE (store : Except Unit (List Appointment)) (day : Int)
    (slot_duration : Nat) : List Nat :=
  (slot_loop openingMinute closingMinute slot_duration).filter
    (fun m => check_availabilityE store (1440 * day + (m : Int)))

/-- `get_available_slots` against a successfully read store. -/
def get_available_slots (docs : List Appointment) (day : Int)
    (slot_duration : Nat) : List Nat :=
  get_available_slotsE (Except.ok docs) day slot_duration

/-- Request body `AppointmentCreate` (`backend/models/schemas.py`), reduced to
the fields `create_appointment` copies into the document. -/
structure AppointmentCreate where
  patient_name : String
  instant : Int
  reason : String
  deriving DecidableEq, Repr

/-- `AppointmentService.create_appointment`: builds the document with
`status=PENDING` and `duration_minutes` from settings, then inserts it. -/
def create_appointment (data : AppointmentCreate) (freshId : Nat) : Appointment :=
  { id := freshId
    patient_name := data.patient_name
    instant := data.instant
    duration_minutes := APPOINTMENT_SLOT_DURATION
    reason := data.reason
    status := AppointmentStatus.pending }

/-- `AppointmentService.get_appointment`, with the outcome of the underlying
`Appointment.get` fetch passed in (`Except.error` models the storage call or
id parsing raising): the `except` clause returns `None`. -/
def get_appointment (fetched : Except Unit (Option Appointment)) : Option Appointment :=
  match fetched with
  | Except.ok r => r
  | Except.error _ => none

/-- The primary-key lookup backing `get_appointment` on an in-memory store. -/
def db_get (store : List Appointment) (i : Nat) : Option Appointment :=
  store.find? (fun a => a.id == i)

/-- `appointment.save()`: write the document back over the record with its id. -/
def db_save (store : List Appointment) (a : Appointment) : List Appointment :=
  store.map (fun b => if b.id == a.id then a else b)

/-- `AppointmentService.confirm_appointment` over an in-memory store: fetch by
id; if found, set `status=CONFIRMED` (no guard on the current status) and
save.  Returns the updated store and the returned appointment. -/
def confirm_appointment (store : List Appointment) (i : Nat) :
    List Appointment × Option Appointment :=
  match get_appointment (Except.ok (db_get store i)) with
  | none => (store, none)
  | some a =>
      let a' := { a with status := AppointmentStatus.confirmed }
      (db_save store a', some a')

/-- `AppointmentService.cancel_appointment` over an in-memory store: fetch by
id; if found, set `status=CANCELLED` and save. -/
def cancel_appointment (store : List Appointment) (i : Nat) :
    List Appointment × Option Appointment :=
  match get_appointment (Except.ok (db_get store i)) with
  | none => (store, none)
  | some a =>
      let a' := { a with status := AppointmentStatus.cancelled }
      (db_save store a', some a')

/-- Request body `AppointmentUpdate` (`backend/models/schemas.py`): every
field optional; `none` models a field left unset (excluded by
`model_dump(exclude_unset=True)`). -/
structure AppointmentUpdate where
  appointment_date : Option Int := none
  duration_minutes : Option Int := none
  reason : Option String := none
  status : Option AppointmentStatus := none
  deriving DecidableEq, Repr

/-- The `setattr` loop of `update_appointment`: overwrite exactly the fields
that were set in the request. -/
def apply_update (a : Appointment) (u : AppointmentUpdate) : Appointment :=
  { a with
    instant := u.appointment_date.getD a.instant
    duration_minutes := u.duration_minutes.getD a.duration_minutes
    reason := u.reason.getD a.reason
    status := u.status.getD a.status }

/-- `AppointmentService.update_appointment` over an in-memory store: fetch by
id; if found, apply the set fields (no guard on the current status) and save. -/
def update_appointment (store : List Appointment) (i : Nat) (u : AppointmentUpdate) :
    List Appointment × Option Appointment :=
  match get_appointment (Except.ok (db_get store i)) with
  | none => (store, none)
  | some a =>
      let a' := apply_update a u
      (db_save store a', some a')

/-!  HTTP routes (`backend/api/routes/appointments.py`).  A route outcome is
`Except Nat α`: `Except.error c` is an `HTTPException` with status code `c`. -/

/-- Route `GET /appointments/{id}`: 404 when the service returns `None`. -/
def get_appointment_route (fetched : Except Unit (Option Appointment)) :
    Except Nat Appointment :=
  match get_appointment fetched with
  | some a => Except.ok a
  | none => Except.error 404

/-- Route `DELETE /appointments/{id}`: 404 when the service returns `None`. -/
def cancel_appointment_route (fetched : Except Unit (Option Appointment)) :
    Except Nat String :=
  match get_appointment fetched with
  | some _ => Except.ok "Appointment cancelled successfully"
  | none => Except.error 404

/-- Route `POST /appointments/{id}/confirm`: 404 when the service returns
`None`. -/
def confirm_appointment_route (fetched : Except Unit (Option Appointment)) :
    Except Nat Appointment :=
  match get_appointment fetched with
  | some a => Except.ok { a with status := AppointmentStatus.confirmed }
  | none => Except.error 404

/-- Route `PUT /appointments/{id}`: 404 when the service returns `None`. -/
def update_appointment_route (fetched : Except Unit (Option Appointment))
    (u : AppointmentUpdate) : Except Nat Appointment :=
  match get_appointment fetched with
  | some a => Except.ok (apply_update a u)
  | none => Except.error 404

/-!  Route `POST /appointments/` runs `check_availability` and then, if it
returned `True`, `create_appointment` — two storage interactions separated by
an `await`.  For the concurrency claim, one request is a two-step program over
the shared store; a schedule interleaves the atomic steps of two requests. -/

/-- Program counter of one in-flight booking request. -/
inductive BookingPC where
  | ready
  | checked (ok : Bool)
  | finished (success : Bool)
  deriving DecidableEq, Repr

/-- One atomic step of the `POST /appointments/` handler: first the
availability check (a store read), then — only when the check passed — the
insert (a store write); an unavailable slot finishes with the 400 rejection. -/
def booking_step (store : List Appointment) (req : AppointmentCreate) (freshId : Nat) :
    BookingPC → List Appointment × BookingPC
  | BookingPC.ready =>
      (store, BookingPC.checked (check_availability store req.instant))
  | BookingPC.checked ok =>
      if ok then (store ++ [create_appointment req freshId], BookingPC.finished true)
      else (store, BookingPC.finished false)
  | BookingPC.finished s => (store, BookingPC.finished s)

/-- Run two concurrent booking requests under a schedule: `true` entries step
request 1, `false` entries step request 2. -/
def run_bookings (store : List Appointment) (r1 r2 : AppointmentCreate)
    (p1 p2 : BookingPC) : List Bool → List Appointment × BookingPC × BookingPC
  | [] => (store, p1, p2)
  | b :: rest =>
      if b then
        let s := booking_step store r1 1 p1
        run_bookings s.1 r1 r2 s.2 p2 rest
      else
        let s := booking_step store r2 2 p2
        run_bookings s.1 r1 r2 p1 s.2 rest

/-!  Conversation state machine (`backend/agents/dent_agent.py`) and its
provider wrappers (`backend/core/llm_setup.py`,
`backend/core/language_service.py`).  Collected data is the agent's
`collected_data` dict, modelled as an association list with insertion order
and at most one entry per key (Python dict semantics); an extracted entity
value is `Option String`, `none` standing for JSON `null`/absent. -/

/-- Conversation stages of `DentalAgent.conversation_state`. -/
inductive Stage where
  | greeting
  | collecting_info
  | confirming
  | closing
  deriving DecidableEq, Repr

/-- `dict[k] = v`: overwrite the entry with key `k` in place if present, else
append (Python dict update semantics, insertion order kept). -/
def dictInsert : List (String × String) → String → String → List (String × String)
  | [], k, v => [(k, v)]
  | p :: rest, k, v => if p.1 == k then (k, v) :: rest else p :: dictInsert rest k v

/-- `dict.get(k)`: the value at key `k`, if any. -/
def dictGet : List (String × String) → String → Option String
  | [], _ => none
  | p :: rest, k => if p.1 == k then some p.2 else dictGet rest k

/-- Python truthiness of an extracted entity value: present and non-empty. -/
def truthy : Option String → Bool
  | none => false
  | some s => !(s == "")

/-- The entity merge of `process_message`:
`collected_data.update(k: v for k, v in entities.items() if v)` — only truthy
values are written. -/
def mergeEntities (d : List (String × String))
    (entities : List (String × Option String)) : List (String × String) :=
  entities.foldl
    (fun acc kv =>
      match kv.2 with
      | some v => if v == "" then acc else dictInsert acc kv.1 v
      | none => acc)
    d

/-- `required_fields` of `_generate_contextual_response`. -/
def required_fields : List String :=
  ["patient_name", "phone", "appointment_date", "appointment_time"]

/-- The missing-field scan of `_generate_contextual_response`: a required
field is missing when absent or holding a falsy (empty) value. -/
def missing_fields (collected : List (String × String)) : List String :=
  required_fields.filter
    (fun f =>
      match dictGet collected f with
      | none => true
      | some v => v == "")

/-- `DentalAgent.conversation_state`. -/
structure ConversationState where
  stage : Stage
  collected_data : List (String × String)
  deriving DecidableEq, Repr

/-- The state set by `DentalAgent.__init__` and by `reset_conversation`. -/
def conv_init : ConversationState :=
  { stage := Stage.greeting, collected_data := [] }

/-- `DentalAgent.reset_conversation`. -/
def reset_conversation (_st : ConversationState) : ConversationState :=
  conv_init

/-- `GroqService.detect_intent` wrapper: on success the model output, stripped
and lowercased; its `except` clause returns `"other"`. -/
def detect_intent (raw : Except Unit String) : String :=
  match raw with
  | Except.ok s => s.trim.toLower
  | Except.error _ => "other"

/-- `GroqService.extract_entities` wrapper: on success the parsed entity
mapping; its `except` clause (provider error or malformed JSON) returns `{}`. -/
def extract_entities (raw : Except Unit (List (String × Option String))) :
    List (String × Option String) :=
  match raw with
  | Except.ok es => es
  | Except.error _ => []

/-- The template registry of `LanguageService.get_template`: exactly the five
registered template names with their per-language dictionaries (English
entries shown; lookup falls back to `"en"`, so the other languages do not
change any behaviour proved here). -/
def templatesMap : List (String × List (String × String)) :=
  [ ("ask_name", [("en", "May I have your name, please?")])
  , ("ask_phone", [("en", "What's your phone number?")])
  , ("ask_date", [("en", "Which date would you prefer for your appointment?")])
  , ("ask_time", [("en", "What time works best for you?")])
  , ("closing", [("en", "Thank you for calling {clinic_name}. Have a great day!")])
  ]

/-- Character-level scan of `str.format(clinic_name=...)`: replace each
left-to-right occurrence of the placeholder.  The fuel argument (instantiated
with the text's length, an upper bound on the scan steps) keeps the recursion
structural. -/
def replaceClinicAux : Nat → List Char → List Char
  | 0, cs => cs
  | _, [] => []
  | fuel + 1, c :: rest =>
      let pat := "{clinic_name}".data
      if (c :: rest).take pat.length == pat then
        CLINIC_NAME.data ++ replaceClinicAux fuel ((c :: rest).drop pat.length)
      else
        c :: replaceClinicAux fuel rest

/-- The `str.format(clinic_name=...)` call of `get_template`, applied when the
placeholder occurs in the message (replacing it is the identity when it does
not occur, so the occurrence test needs no separate model). -/
def formatClinic (msg : String) : String :=
  String.mk (replaceClinicAux msg.data.length msg.data)

/-- `LanguageService.get_template`: look the name up in the registry (an
unknown name yields the empty dictionary), then the language with fallback to
English, defaulting to `""`. -/
def get_template (name lang : String) : String :=
  let td := (((templatesMap.find? (fun p => p.1 == name))).map (fun p => p.2)).getD []
  let message :=
    (((td.find? (fun p => p.1 == lang)).map (fun p => p.2)).orElse
      (fun _ => ((td.find? (fun p => p.1 == "en")).map (fun p => p.2)))).getD ""
  formatClinic message

/-- The return value of `DentalAgent.process_message`. -/
structure TurnOutput where
  response : String
  intent : String
  entities : List (String × Option String)
  collected_data : List (String × String)
  stage : Stage
  deriving DecidableEq, Repr

/-- The stage-transition rules at the end of
`_generate_contextual_response`, evaluated after a successful generation. -/
def next_stage (stage : Stage) (missing : List String) : Stage :=
  if missing.isEmpty ∧ stage ≠ Stage.confirming then Stage.confirming
  else if ¬missing.isEmpty ∧ stage = Stage.greeting then Stage.collecting_info
  else stage

/-- `DentalAgent.process_message`, with the outcomes of the three provider
calls passed in: `intentRaw` and `entitiesRaw` feed the wrappers (which never
raise), `genResult` is `generate_response` (which re-raises).  The entity
merge mutates `collected_data` before generation; when generation raises, the
`except` clause answers with the `"error"` template, intent `"error"`, empty
entities, and the state as mutated so far. -/
def process_message (st : ConversationState) (intentRaw : Except Unit String)
    (entitiesRaw : Except Unit (List (String × Option String)))
    (genResult : Except Unit String) (language : String) :
    TurnOutput × ConversationState :=
  let intent := detect_intent intentRaw
  let entities := extract_entities entitiesRaw
  let collected := mergeEntities st.collected_data entities
  match genResult with
  | Except.ok response =>
      let stage := next_stage st.stage (missing_fields collected)
      ({ response := response, intent := intent, entities := entities
         collected_data := collected, stage := stage },
       { stage := stage, collected_data := collected })
  | Except.error _ =>
      ({ response := get_template "error" language, intent := "error", entities := []
         collected_data := collected, stage := st.stage },
       { stage := st.stage, collected_data := collected })

/-- `DentalAgent.is_appointment_ready`. -/
def is_appointment_ready (st : ConversationState) : Bool :=
  required_fields.all
    (fun f =>
      match dictGet st.collected_data f with
      | none => false
      | some v => !(v == ""))

/-- The provider outcomes of one conversation turn. -/
structure TurnInput where
  intentRaw : Except Unit String
  entitiesRaw : Except Unit (List (String × Option String))
  genResult : Except Unit String
  language : String

/-- The session state after a sequence of turns. -/
def run_turns (st : ConversationState) (turns : List TurnInput) : ConversationState :=
  turns.foldl
    (fun s t => (process_message s t.intentRaw t.entitiesRaw t.genResult t.language).2)
    st

/-- Forward order on stages, for the no-regression invariant. -/
def stageRank : Stage → Nat
  | Stage.greeting => 0
  | Stage.collecting_info => 1
  | Stage.confirming => 2
  | Stage.closing => 3

/-!  Helper lemmas. -/

/-- There is no registered `"error"` template, so `get_template` answers the
empty string for it in every language. -/
theorem get_template_error_eq_empty (lang : String) : get_template "error" lang = "" := by
  simp [get_template, templatesMap, formatClinic, replaceClinicAux]

theorem dictGet_dictInsert (d : List (String × String)) (k v k' : String) :
    dictGet (dictInsert d k v) k' = if k' = k then some v else dictGet d k' := by
  induction d with
  | nil =>
      by_cases h : k' = k
      · simp [dictInsert, dictGet, h]
      · simp [dictInsert, dictGet, h, Ne.symm h]
  | cons p rest ih =>
      rcases p with ⟨pk, pv⟩
      by_cases hp : pk = k
      · subst hp
        by_cases h : k' = pk
        · simp [dictInsert, dictGet, h]
        · simp [dictInsert, dictGet, h, Ne.symm h]
      · by_cases h : k' = pk
        · subst h
          simp [dictInsert, dictGet, hp, Ne.symm hp, fun hk : k' = k => hp hk]
        · simp [dictInsert, dictGet, hp, Ne.symm h, ih]

/-- One step of the merge fold. -/
theorem mergeEntities_cons (d : List (String × String)) (k1 : String)
    (ov : Option String) (rest : List (String × Option String)) :
    mergeEntities d ((k1, ov) :: rest) =
      mergeEntities
        (match ov with
         | some v => if v == "" then d else dictInsert d k1 v
         | none => d) rest := rfl

/-- Every key either keeps its old value across a merge, or ends at one of the
turn's truthy extracted values. -/
theorem mergeEntities_get_cases (es : List (String × Option String))
    (d : List (String × String)) (k : String) :
    dictGet (mergeEntities d es) k = dictGet d k ∨
      ∃ v, (k, some v) ∈ es ∧ ¬(v = "") ∧ dictGet (mergeEntities d es) k = some v := by
  induction es generalizing d with
  | nil => exact Or.inl rfl
  | cons kv rest ih =>
      rcases kv with ⟨k1, _ | v⟩
      · simp only [mergeEntities_cons]
        rcases ih d with h | ⟨v, hv, hne, hget⟩
        · exact Or.inl h
        · exact Or.inr ⟨v, List.mem_cons_of_mem _ hv, hne, hget⟩
      · simp only [mergeEntities_cons]
        by_cases hve : v = ""
        · rw [if_pos (by simpa using hve)]
          rcases ih d with h | ⟨w, hw, hne, hget⟩
          · exact Or.inl h
          · exact Or.inr ⟨w, List.mem_cons_of_mem _ hw, hne, hget⟩
        · rw [if_neg (by simpa using hve)]
          rcases ih (dictInsert d k1 v) with h | ⟨w, hw, hne, hget⟩
          · rw [h, dictGet_dictInsert]
            by_cases hk : k = k1
            · subst hk
              exact Or.inr ⟨v, List.mem_cons_self _ _, hve, by simp⟩
            · exact Or.inl (by simp [hk])
          · exact Or.inr ⟨w, List.mem_cons_of_mem _ hw, hne, hget⟩

/-- If every value the extraction carries for key `k` is falsy, the merge
leaves `k` untouched. -/
theorem mergeEntities_get_of_no_truthy (es : List (String × Option String))
    (d : List (String × String)) (k : String)
    (h : ∀ ov, (k, ov) ∈ es → truthy ov = false) :
    dictGet (mergeEntities d es) k = dictGet d k := by
  induction es generalizing d with
  | nil => rfl
  | cons kv rest ih =>
      rcases kv with ⟨k1, _ | v⟩
      · simp only [mergeEntities_cons]
        exact ih d (fun ov hov => h ov (List.mem_cons_of_mem _ hov))
      · simp only [mergeEntities_cons]
        by_cases hve : v = ""
        · rw [if_pos (by simpa using hve)]
          exact ih d (fun ov hov => h ov (List.mem_cons_of_mem _ hov))
        · rw [if_neg (by simpa using hve)]
          rw [ih (dictInsert d k1 v) (fun ov hov => h ov (List.mem_cons_of_mem _ hov))]
          rw [dictGet_dictInsert]
          have hk : ¬(k = k1) := by
            intro hk
            subst hk
            have := h (some v) (List.mem_cons_self _ _)
            simp [truthy, hve] at this
          simp [hk]

/-- Every slot the grid loop emits is at or after the start it was called
with. -/
theorem slot_loop_ge (c s st : Nat) : ∀ m ∈ slot_loop c s st, c ≤ m := by
  induction c, s, st using slot_loop.induct with
  | case1 c s st h ih =>
      rw [slot_loop, dif_pos h]
      intro m hm
      rcases List.mem_cons.mp hm with rfl | hm
      · exact le_refl m
      · exact le_trans (Nat.le_add_right c st) (ih m hm)
  | case2 c s st h =>
      rw [slot_loop, dif_neg h]
      intro m hm
      exact absurd hm (List.not_mem_nil m)

/-- The slot grid is strictly increasing. -/
theorem slot_loop_pairwise (c s st : Nat) : (slot_loop c s st).Pairwise (· < ·) := by
  induction c, s, st using slot_loop.induct with
  | case1 c s st h ih =>
      rw [slot_loop, dif_pos h]
      refine List.Pairwise.cons (fun m hm => ?_) ih
      have := slot_loop_ge (c + st) s st m hm
      omega
  | case2 c s st h =>
      rw [slot_loop, dif_neg h]
      exact List.Pairwise.nil

/-- With a positive step, the grid holds exactly the multiples-of-step offsets
from the start that lie before the stop. -/
theorem slot_loop_mem_iff (c s st : Nat) (hst : 0 < st) (m : Nat) :
    m ∈ slot_loop c s st ↔ ∃ i, m = c + st * i ∧ m < s := by
  induction c, s, st using slot_loop.induct with
  | case1 c s st h ih =>
      rw [slot_loop, dif_pos h]
      constructor
      · intro hm
        rcases List.mem_cons.mp hm with rfl | hm
        · exact ⟨0, by simp, h.2⟩
        · rcases (ih hst).mp hm with ⟨i, rfl, hlt⟩
          exact ⟨i + 1, by simp [Nat.mul_succ]; omega, hlt⟩
      · rintro ⟨i, rfl, hlt⟩
        cases i with
        | zero => simp
        | succ j =>
            refine List.mem_cons_of_mem _ ((ih hst).mpr ⟨j, ?_, hlt⟩)
            simp [Nat.mul_succ]
            omega
  | case2 c s st h =>
      rw [slot_loop, dif_neg h]
      simp only [List.not_mem_nil, false_iff]
      rintro ⟨i, rfl, hlt⟩
      have hcs : ¬c < s := fun hc => h ⟨hst, hc⟩
      have : c ≤ c + st * i := Nat.le_add_right _ _
      omega

/-- Rank never drops across one application of the transition rules, and the
rules never produce `closing`, when starting from a non-`closing` stage. -/
theorem next_stage_rank (s : Stage) (m : List String) (h : s ≠ Stage.closing) :
    stageRank s ≤ stageRank (next_stage s m) ∧ next_stage s m ≠ Stage.closing := by
  cases s <;> simp only [next_stage] <;> split_ifs <;> simp_all [stageRank]

/-- From a non-`confirming` stage, the transition rules land on `confirming`
exactly when no required field is missing. -/
theorem next_stage_confirming_iff (s : Stage) (m : List String)
    (h : s ≠ Stage.confirming) :
    next_stage s m = Stage.confirming ↔ m.isEmpty = true := by
  cases s <;> simp only [next_stage] <;> split_ifs <;> simp_all

/-- One turn never drops the stage rank and never produces `closing`. -/
theorem process_message_stage_step (st : ConversationState)
    (i : Except Unit String) (e : Except Unit (List (String × Option String)))
    (g : Except Unit String) (lang : String) (h : st.stage ≠ Stage.closing) :
    stageRank st.stage ≤ stageRank (process_message st i e g lang).2.stage ∧
    (process_message st i e g lang).2.stage ≠ Stage.closing := by
  cases g with
  | ok r =>
      exact next_stage_rank st.stage
        (missing_fields (mergeEntities st.collected_data (extract_entities e))) h
  | error u => exact ⟨le_refl _, h⟩

/-- Rank keeps growing along any sequence of turns from a non-`closing`
state, which also never reaches `closing`. -/
theorem run_turns_stage_mono (turns : List TurnInput) (st : ConversationState)
    (h : st.stage ≠ Stage.closing) :
    stageRank st.stage ≤ stageRank (run_turns st turns).stage ∧
    (run_turns st turns).stage ≠ Stage.closing := by
  induction turns generalizing st with
  | nil => exact ⟨le_refl _, h⟩
  | cons t rest ih =>
      have hstep := process_message_stage_step st t.intentRaw t.entitiesRaw
        t.genResult t.language h
      have hrest := ih (process_message st t.intentRaw t.entitiesRaw
        t.genResult t.language).2 hstep.2
      exact ⟨le_trans hstep.1 hrest.1, hrest.2⟩

/-- `missing_fields` is empty exactly when every required field carries a
present, non-empty value. -/
theorem missing_fields_empty_iff (c : List (String × String)) :
    missing_fields c = [] ↔
      ∀ f ∈ required_fields, ∃ v, dictGet c f = some v ∧ ¬(v = "") := by
  unfold missing_fields
  rw [List.filter_eq_nil_iff]
  refine forall_congr' fun f => imp_congr_right fun _ => ?_
  cases hdg : dictGet c f with
  | none => simp
  | some v => simp [hdg]

/-!  Claim theorems. -/

/-- C1: for every store and requested instant, `check_availability` returns
`true` iff zero appointments with status pending or confirmed have their
stored instant inside the buffered window
`[instant − buffer, instant + slot_duration + buffer)`; in particular, with
the defaults (buffer 15, slot 30) and a single confirmed appointment at 10:00
(minute 600), the check at 10:15 (minute 615) is `false` and at 11:00
(minute 660) is `true`. -/
theorem check_availability_conflict_window :
    (∀ (docs : List Appointment) (t : Int),
        check_availability docs t = true ↔
          ∀ a ∈ docs, ¬(isActive a.status = true ∧
            t - APPOINTMENT_BUFFER_MINUTES ≤ a.instant ∧
            a.instant < t + APPOINTMENT_SLOT_DURATION + APPOINTMENT_BUFFER_MINUTES)) ∧
    check_availability [⟨1, "Asha", 600, 30, "checkup", AppointmentStatus.confirmed⟩] 615
      = false ∧
    check_availability [⟨1, "Asha", 600, 30, "checkup", AppointmentStatus.confirmed⟩] 660
      = true := by
  refine ⟨fun docs t => ?_, by decide, by decide⟩
  simp [check_availability, check_availabilityE, List.length_eq_zero,
    List.filter_eq_nil_iff, inConflictWindow, not_and, and_imp]

/-- C2 counterexample: at a concrete storage failure the claim fails —
`check_availability` hands its caller the Boolean `false` (no error is
surfaced), and `get_available_slots` hands back the empty list. -/
theorem check_availability_error_coerced :
    check_availabilityE (Except.error ()) 615 = false ∧
    get_available_slotsE (Except.error ()) 0 30 = [] := by
  refine ⟨rfl, ?_⟩
  simp [get_available_slotsE, check_availabilityE]

/-- C2 (amended): on a storage failure the availability check fails closed
rather than raising: `check_availability` returns `false` for every requested
instant (it never claims availability), and `get_available_slots` — whose
per-slot checks all report unavailable — returns the empty list. -/
theorem storage_failure_fail_closed (t day : Int) (step : Nat) :
    check_availabilityE (Except.error ()) t = false ∧
    get_available_slotsE (Except.error ()) day step = [] := by
  refine ⟨rfl, ?_⟩
  simp [get_available_slotsE, check_availabilityE]

/-- C3 counterexample: a turn whose extraction succeeds (yielding a fresh
patient name) and whose response generation then fails leaves the session's
collected data merged, not as it was before the turn, and the "generic
localized error message" is the empty string. -/
theorem process_message_merge_not_atomic :
    (process_message conv_init (Except.ok "book_appointment")
        (Except.ok [("patient_name", some "Asha")]) (Except.error ()) "en").2.collected_data
      = [("patient_name", "Asha")] ∧
    conv_init.collected_data = [] ∧
    (process_message conv_init (Except.ok "book_appointment")
        (Except.ok [("patient_name", some "Asha")]) (Except.error ()) "en").1.response
      = "" ∧
    (process_message conv_init (Except.ok "book_appointment")
        (Except.ok [("patient_name", some "Asha")]) (Except.error ()) "en").1.intent
      = "error" := by
  decide

/-- C3 (amended): when response generation raises, `process_message` does not
raise: it answers with the `"error"` template — which is the empty string,
since no such template is registered — and intent `"error"`, and the stage is
exactly what it was before the turn; but the entities already extracted that
turn stay merged into the collected data, so the merge is not all-or-nothing.
Failures of entity extraction or intent detection are absorbed inside the
provider wrappers (empty entities, intent `"other"`) and the turn proceeds
normally, leaving the collected data untouched in the extraction-failure
case. -/
theorem process_message_generation_failure (st : ConversationState)
    (i : Except Unit String) (e : Except Unit (List (String × Option String)))
    (r lang : String) :
    (process_message st i e (Except.error ()) lang).1.response = "" ∧
    (process_message st i e (Except.error ()) lang).1.intent = "error" ∧
    (process_message st i e (Except.error ()) lang).2.stage = st.stage ∧
    (process_message st i e (Except.error ()) lang).2.collected_data
      = mergeEntities st.collected_data (extract_entities e) ∧
    (process_message st i (Except.error ()) (Except.ok r) lang).2.collected_data
      = st.collected_data ∧
    (process_message st i (Except.error ()) (Except.ok r) lang).1.intent
      = detect_intent i := by
  refine ⟨?_, rfl, rfl, rfl, rfl, rfl⟩
  simpa [process_message] using get_template_error_eq_empty lang

/-- C7 counterexample: on a store holding a single cancelled appointment,
`confirm_appointment` moves it to `confirmed` — `cancelled` is not terminal. -/
theorem cancelled_not_terminal :
    confirm_appointment [⟨1, "Asha", 600, 30, "checkup", AppointmentStatus.cancelled⟩] 1
      = ([⟨1, "Asha", 600, 30, "checkup", AppointmentStatus.confirmed⟩],
         some ⟨1, "Asha", 600, 30, "checkup", AppointmentStatus.confirmed⟩) := by
  decide

/-- C7 (amended): an appointment's lifecycle starts in `pending`, and
`cancel_appointment` always moves a found appointment to `cancelled`; but
`cancelled` is not terminal: `confirm_appointment` sets `confirmed` and
`update_appointment` applies any requested status with no guard on the current
status, so either moves even a cancelled appointment to another status. -/
theorem status_transitions_unguarded (data : AppointmentCreate) (n : Nat)
    (store : List Appointment) (i : Nat) (a : Appointment)
    (u : AppointmentUpdate) (s : AppointmentStatus)
    (hfound : db_get store i = some a) :
    (create_appointment data n).status = AppointmentStatus.pending ∧
    (cancel_appointment store i).2 = some { a with status := AppointmentStatus.cancelled } ∧
    (confirm_appointment store i).2 = some { a with status := AppointmentStatus.confirmed } ∧
    (u.status = some s → ((update_appointment store i u).2.map Appointment.status) = some s) := by
  refine ⟨rfl, ?_, ?_, fun hs => ?_⟩
  · simp [cancel_appointment, get_appointment, hfound]
  · simp [confirm_appointment, get_appointment, hfound]
  · simp [update_appointment, get_appointment, hfound, apply_update, hs]

/-- C7 witness: the amended theorem applied to a store holding one cancelled
appointment and an update request carrying `status=pending`. -/
theorem status_transitions_unguarded_witness :
    db_get [⟨1, "Asha", 600, 30, "checkup", AppointmentStatus.cancelled⟩] 1
      = some ⟨1, "Asha", 600, 30, "checkup", AppointmentStatus.cancelled⟩ ∧
    ((create_appointment ⟨"Ravi", 720, "cleaning"⟩ 2).status = AppointmentStatus.pending ∧
     (cancel_appointment [⟨1, "Asha", 600, 30, "checkup", AppointmentStatus.cancelled⟩] 1).2
       = some ⟨1, "Asha", 600, 30, "checkup", AppointmentStatus.cancelled⟩ ∧
     (confirm_appointment [⟨1, "Asha", 600, 30, "checkup", AppointmentStatus.cancelled⟩] 1).2
       = some ⟨1, "Asha", 600, 30, "checkup", AppointmentStatus.confirmed⟩ ∧
     ((⟨none, none, none, some AppointmentStatus.pending⟩ : AppointmentUpdate).status
         = some AppointmentStatus.pending →
       ((update_appointment [⟨1, "Asha", 600, 30, "checkup", AppointmentStatus.cancelled⟩] 1
           ⟨none, none, none, some AppointmentStatus.pending⟩).2.map Appointment.status)
         = some AppointmentStatus.pending)) :=
  ⟨by decide,
   status_transitions_unguarded ⟨"Ravi", 720, "cleaning"⟩ 2
     [⟨1, "Asha", 600, 30, "checkup", AppointmentStatus.cancelled⟩] 1
     ⟨1, "Asha", 600, 30, "checkup", AppointmentStatus.cancelled⟩
     ⟨none, none, none, some AppointmentStatus.pending⟩ AppointmentStatus.pending (by decide)⟩

/-- C8: the booking route's availability check and insert are two separate
storage interactions with no lock or transactional constraint, so with two
requests for the same 10:00 slot on an empty store, the interleaving
check₁, check₂, insert₁, insert₂ lets both requests pass the check and both
insert: the final store holds two active appointments inside the same
buffered window.  Under the fully sequential schedule the second request is
rejected, confirming the conflict is real. -/
theorem booking_race_both_insert :
    (run_bookings [] ⟨"Asha", 600, "checkup"⟩ ⟨"Ravi", 600, "cleaning"⟩
        BookingPC.ready BookingPC.ready [true, false, true, false]).2.1
      = BookingPC.finished true ∧
    (run_bookings [] ⟨"Asha", 600, "checkup"⟩ ⟨"Ravi", 600, "cleaning"⟩
        BookingPC.ready BookingPC.ready [true, false, true, false]).2.2
      = BookingPC.finished true ∧
    (run_bookings [] ⟨"Asha", 600, "checkup"⟩ ⟨"Ravi", 600, "cleaning"⟩
        BookingPC.ready BookingPC.ready [true, false, true, false]).1.length = 2 ∧
    (∀ a ∈ (run_bookings [] ⟨"Asha", 600, "checkup"⟩ ⟨"Ravi", 600, "cleaning"⟩
        BookingPC.ready BookingPC.ready [true, false, true, false]).1,
      inConflictWindow 600 a = true) ∧
    (run_bookings [] ⟨"Asha", 600, "checkup"⟩ ⟨"Ravi", 600, "cleaning"⟩
        BookingPC.ready BookingPC.ready [true, true, false, false]).2.2
      = BookingPC.finished false := by
  decide

/-- C9: `reset_conversation` is idempotent and callable from any state: one
or two applications give the identical state, with stage `greeting` and empty
collected data. -/
theorem reset_conversation_idempotent (st : ConversationState) :
    reset_conversation (reset_conversation st) = reset_conversation st ∧
    (reset_conversation st).stage = Stage.greeting ∧
    (reset_conversation st).collected_data = [] :=
  ⟨rfl, rfl, rfl⟩

/-- C10: `get_appointment` returns `none` both when the storage fetch raises
and when the id is unknown, so `cancel_appointment`, `confirm_appointment`,
`update_appointment` and the routes built on them surface a storage failure
as the same 404 "not found" outcome as a genuinely missing appointment. -/
theorem storage_failure_as_not_found (u : AppointmentUpdate) :
    get_appointment (Except.error ()) = none ∧
    get_appointment (Except.ok none) = none ∧
    get_appointment_route (Except.error ()) = Except.error 404 ∧
    get_appointment_route (Except.ok none) = Except.error 404 ∧
    cancel_appointment_route (Except.error ()) = Except.error 404 ∧
    cancel_appointment_route (Except.ok none) = Except.error 404 ∧
    confirm_appointment_route (Except.error ()) = Except.error 404 ∧
    confirm_appointment_route (Except.ok none) = Except.error 404 ∧
    update_appointment_route (Except.error ()) u = Except.error 404 ∧
    update_appointment_route (Except.ok none) u = Except.error 404 :=
  ⟨rfl, rfl, rfl, rfl, rfl, rfl, rfl, rfl, rfl, rfl⟩

/-- C4: for every store, day and positive slot duration,
`get_available_slots` is strictly increasing (hence duplicate-free), holds
exactly the grid slots (multiples of the step from opening 09:00, before
closing 20:00) for which `check_availability` holds, equals the full grid on
a day with zero appointments, and is the empty sequence — not an error — on
a fully booked day. -/
theorem get_available_slots_spec (docs : List Appointment) (day : Int) (step : Nat)
    (hstep : 0 < step) :
    (get_available_slots docs day step).Pairwise (· < ·) ∧
    (∀ m, m ∈ get_available_slots docs day step ↔
        m ∈ slot_loop openingMinute closingMinute step ∧
          check_availability docs (1440 * day + (m : Int)) = true) ∧
    (∀ m, m ∈ slot_loop openingMinute closingMinute step ↔
        ∃ i, m = openingMinute + step * i ∧ m < closingMinute) ∧
    get_available_slots [] day step = slot_loop openingMinute closingMinute step ∧
    ((∀ m ∈ slot_loop openingMinute closingMinute step,
        check_availability docs (1440 * day + (m : Int)) = false) →
      get_available_slots docs day step = []) := by
  refine ⟨?_, ?_, fun m => slot_loop_mem_iff _ _ _ hstep m, ?_, ?_⟩
  · exact (slot_loop_pairwise _ _ _).filter _
  · intro m
    simp [get_available_slots, get_available_slotsE, check_availability, List.mem_filter]
  · simp [get_available_slots, get_available_slotsE, check_availabilityE]
  · intro hall
    refine List.filter_eq_nil_iff.mpr fun m hm => ?_
    simp only [check_availability] at hall
    simp [hall m hm]

/-- C4 witness: the specification applied to the empty store on day 0 with
the default 30-minute slot duration. -/
theorem get_available_slots_spec_witness :
    0 < 30 ∧
    ((get_available_slots [] 0 30).Pairwise (· < ·) ∧
     (∀ m, m ∈ get_available_slots [] 0 30 ↔
         m ∈ slot_loop openingMinute closingMinute 30 ∧
           check_availability [] (1440 * 0 + (m : Int)) = true) ∧
     (∀ m, m ∈ slot_loop openingMinute closingMinute 30 ↔
         ∃ i, m = openingMinute + 30 * i ∧ m < closingMinute) ∧
     get_available_slots [] 0 30 = slot_loop openingMinute closingMinute 30 ∧
     ((∀ m ∈ slot_loop openingMinute closingMinute 30,
         check_availability [] (1440 * 0 + (m : Int)) = false) →
       get_available_slots [] 0 30 = [])) :=
  ⟨by decide, get_available_slots_spec [] 0 30 (by decide)⟩

/-- C5: entity merging is monotonic: only non-empty extracted values
overwrite or insert, so a field holding a non-empty value still holds a
non-empty value after any merge, and a merge whose values for that field are
all empty or absent leaves the old value exactly. -/
theorem merge_entities_monotonic (d : List (String × String))
    (es : List (String × Option String)) (k v : String)
    (hget : dictGet d k = some v) (hne : ¬(v = "")) :
    (∃ u, dictGet (mergeEntities d es) k = some u ∧ ¬(u = "")) ∧
    ((∀ ov, (k, ov) ∈ es → truthy ov = false) →
      dictGet (mergeEntities d es) k = some v) := by
  constructor
  · rcases mergeEntities_get_cases es d k with h | ⟨w, _, hw, hgetw⟩
    · exact ⟨v, by rw [h, hget], hne⟩
    · exact ⟨w, hgetw, hw⟩
  · intro hall
    rw [mergeEntities_get_of_no_truthy es d k hall, hget]

/-- C5 witness: a collected patient name survives a merge that extracts an
empty value for it (spec scenario: turn 1 collects `name: Asha`, turn 2
extracts nothing useful). -/
theorem merge_entities_monotonic_witness :
    dictGet [("patient_name", "Asha")] "patient_name" = some "Asha" ∧
    ¬("Asha" = "") ∧
    ((∃ u, dictGet (mergeEntities [("patient_name", "Asha")]
        [("patient_name", some ""), ("phone", none)]) "patient_name" = some u ∧
        ¬(u = "")) ∧
     ((∀ ov, ("patient_name", ov) ∈
          [("patient_name", some ""), ("phone", (none : Option String))] →
        truthy ov = false) →
      dictGet (mergeEntities [("patient_name", "Asha")]
        [("patient_name", some ""), ("phone", none)]) "patient_name" = some "Asha")) :=
  ⟨by decide, by decide,
   merge_entities_monotonic [("patient_name", "Asha")]
     [("patient_name", some ""), ("phone", none)] "patient_name" "Asha"
     (by decide) (by decide)⟩

/-- C6: from any reachable (non-`closing`) state, a turn never lowers the
stage rank and never produces `closing`, so the stage never regresses along
any sequence of turns absent an explicit reset; and when the transition rules
are applied (generation succeeded) from a stage other than `confirming`, the
new stage is `confirming` exactly when no required field is missing — i.e.
exactly when all four required fields hold non-empty values. -/
theorem stage_progress_invariant (st : ConversationState)
    (i : Except Unit String) (e : Except Unit (List (String × Option String)))
    (g : Except Unit String) (r lang : String) (c : List (String × String))
    (h : st.stage ≠ Stage.closing) :
    stageRank st.stage ≤ stageRank (process_message st i e g lang).2.stage ∧
    (process_message st i e g lang).2.stage ≠ Stage.closing ∧
    (∀ turns : List TurnInput,
      stageRank st.stage ≤ stageRank (run_turns st turns).stage) ∧
    (st.stage ≠ Stage.confirming →
      ((process_message st i e (Except.ok r) lang).2.stage = Stage.confirming ↔
        missing_fields (mergeEntities st.collected_data (extract_entities e)) = [])) ∧
    (missing_fields c = [] ↔
      ∀ f ∈ required_fields, ∃ v, dictGet c f = some v ∧ ¬(v = "")) := by
  refine ⟨(process_message_stage_step st i e g lang h).1,
    (process_message_stage_step st i e g lang h).2,
    fun turns => (run_turns_stage_mono turns st h).1,
    fun hc => ?_, missing_fields_empty_iff c⟩
  have hnext := next_stage_confirming_iff st.stage
    (missing_fields (mergeEntities st.collected_data (extract_entities e))) hc
  simpa [process_message, List.isEmpty_iff] using hnext

/-- C6 witness: the invariant applied to the initial greeting state, with a
turn that extracts nothing and an empty collected-data sample. -/
theorem stage_progress_invariant_witness :
    conv_init.stage ≠ Stage.closing ∧
    (stageRank conv_init.stage ≤
        stageRank (process_message conv_init (Except.ok "hi") (Except.ok [])
          (Except.ok "hello") "en").2.stage ∧
     (process_message conv_init (Except.ok "hi") (Except.ok [])
        (Except.ok "hello") "en").2.stage ≠ Stage.closing ∧
     (∀ turns : List TurnInput,
       stageRank conv_init.stage ≤ stageRank (run_turns conv_init turns).stage) ∧
     (conv_init.stage ≠ Stage.confirming →
       ((process_message conv_init (Except.ok "hi") (Except.ok [])
           (Except.ok "hello") "en").2.stage = Stage.confirming ↔
         missing_fields (mergeEntities conv_init.collected_data
           (extract_entities (Except.ok []))) = [])) ∧
     (missing_fields [] = [] ↔
       ∀ f ∈ required_fields, ∃ v, dictGet [] f = some v ∧ ¬(v = ""))) :=
  ⟨by decide,
   stage_progress_invariant conv_init (Except.ok "hi") (Except.ok [])
     (Except.ok "hello") "hello" "en" [] (by decide)⟩

end DentalVoice
